import Mathlib

/-!
Verification of the data-preparation pipeline of the taxi-demand
repository (`src/data.py`).  The file embeds `validate_raw_data`,
`add_missing_slots`, `get_cutoff_indices_features_and_target` and
`transform_ts_data_into_features_and_target` as executable Lean
functions over explicit row lists, and proves (or refutes) the
documented properties of the pipeline.
-/

/-- Python exception kinds that the embedded functions can raise.
`valueError` models a pandas `ValueError` (for example `pd.date_range`
called with `NaT` bounds, a `Timestamp` parse failure, or reindexing an
index with duplicate labels); `assertionError` models a failed `assert`
statement.  `emptyInputError` and `schemaError` are the error classes
named by the documentation; the code itself never defines or raises
them. -/
inductive PyError where
  | valueError
  | assertionError
  | emptyInputError
  | schemaError
  deriving DecidableEq

instance {ε α : Type} [DecidableEq ε] [DecidableEq α] : DecidableEq (Except ε α) := fun a b =>
  match a, b with
  | .error e, .error f =>
    if h : e = f then .isTrue (by rw [h]) else .isFalse (fun c => h (Except.error.inj c))
  | .error _, .ok _ => .isFalse (fun c => Except.noConfusion c)
  | .ok _, .error _ => .isFalse (fun c => Except.noConfusion c)
  | .ok x, .ok y =>
    if h : x = y then .isTrue (by rw [h]) else .isFalse (fun c => h (Except.ok.inj c))

/-- A timestamp as pandas compares them, at day granularity (the month
bounds built by `validate_raw_data` are `year-month-01` strings, hence
days; finer granularity is irrelevant to the claims about the month
filter). -/
structure PyDateTime where
  year : Nat
  month : Nat
  day : Nat
  deriving DecidableEq

/-- Strict lexicographic comparison of timestamps. -/
def PyDateTime.ltB (a b : PyDateTime) : Bool :=
  a.year < b.year ||
    (a.year == b.year && (a.month < b.month ||
      (a.month == b.month && a.day < b.day)))

/-- Non-strict lexicographic comparison of timestamps. -/
def PyDateTime.leB (a b : PyDateTime) : Bool :=
  a.ltB b || a == b

/-- One raw ride row after the column selection and renaming in
`validate_raw_data`: `pickup_datetime` (with `none` modelling a null
`NaT` timestamp) and `pickup_location_id`. -/
structure RideRecord where
  pickup_datetime : Option PyDateTime
  pickup_location_id : Nat
  deriving DecidableEq

/-- Parsing of the bound string built by the f-string
`year-month-01` (two-digit month).  Pandas accepts it exactly when the
month lies in 1..12, and raises a `ValueError` otherwise, as it does
for the string `2022-13-01`. -/
def parseTimestamp (year month : Nat) : Option PyDateTime :=
  if 1 ≤ month ∧ month ≤ 12 then some ⟨year, month, 1⟩ else none

/-- Embedding of `validate_raw_data` (file input and output, the
column selection and the renames are dropped: `rides` models the rows
of the loaded table after renaming).  Line 60 keeps rows whose
timestamp compares `>=` the string `year-month-01`; line 61 keeps rows
comparing `<` the string `year-(month+1)-01`.  Comparing a datetime
column against a string makes pandas parse the string first, raising a
`ValueError` for an invalid date; a `NaT` timestamp compares false
against everything, so null rows are dropped by the filters. -/
def validate_raw_data (rides : List RideRecord) (year month : Nat) :
    Except PyError (List RideRecord) :=
  match parseTimestamp year month with
  | none => .error .valueError
  | some lo =>
    let kept := rides.filter (fun r =>
      match r.pickup_datetime with
      | some d => lo.leB d
      | none => false)
    match parseTimestamp year (month + 1) with
    | none => .error .valueError
    | some hi =>
      .ok (kept.filter (fun r =>
        match r.pickup_datetime with
        | some d => d.ltB hi
        | none => false))

/-- One row of the hourly time-series table: `pickup_hour` (hours
since an arbitrary epoch, one row per hour once densified),
`pickup_location_id` and the `rides` count. -/
structure TsRow where
  pickup_hour : Nat
  pickup_location_id : Nat
  rides : Nat
  deriving DecidableEq

/-- Helper of `uniqueFirst`: the elements of the remaining list not
already seen, in order. -/
def uniqueFirstAux (seen : List Nat) : List Nat → List Nat
  | [] => []
  | x :: xs =>
    if x ∈ seen then uniqueFirstAux seen xs
    else x :: uniqueFirstAux (x :: seen) xs

/-- Embedding of `pd.unique` on an integer column: the distinct values
in order of first appearance. -/
def uniqueFirst (l : List Nat) : List Nat :=
  uniqueFirstAux [] l

/-- Minimum of a column, `none` on an empty column (pandas returns
`NaN`). -/
def minHour : List Nat → Option Nat
  | [] => none
  | x :: xs => some (xs.foldl Nat.min x)

/-- Maximum of a column, `none` on an empty column (pandas returns
`NaN`). -/
def maxHour : List Nat → Option Nat
  | [] => none
  | x :: xs => some (xs.foldl Nat.max x)

/-- Reindexing of the slice of one location onto the full hourly range
(`agg_rides_i.reindex(full_range, fill_value=0)`) with the location id
column added back.  For every hour of the new index the row keeps the
count of the matching input row and defaults to 0 when there is none;
pandas raises a `ValueError` when the index being reindexed has
duplicate labels. -/
def densifyOne (fullRange : List Nat) (location_id : Nat) (rows_i : List TsRow) :
    Except PyError (List TsRow) :=
  if (rows_i.map (fun r => r.pickup_hour)).Nodup then
    .ok (fullRange.map (fun h =>
      ⟨h, location_id,
        ((rows_i.find? (fun r => r.pickup_hour == h)).map (fun r => r.rides)).getD 0⟩))
  else .error .valueError

/-- Concatenation of the images of a list-valued function, modelling
the repeated `pd.concat` accumulation across the location loop. -/
def concatMapL {α β : Type} (f : α → List β) : List α → List β
  | [] => []
  | x :: xs => f x ++ concatMapL f xs

/-- Sequencing of the per-location results: the first raised error
aborts the loop, otherwise the blocks are concatenated in order. -/
def exceptFlat {ε α : Type} : List (Except ε (List α)) → Except ε (List α)
  | [] => .ok []
  | x :: xs =>
    match x with
    | .error e => .error e
    | .ok a =>
      match exceptFlat xs with
      | .error e => .error e
      | .ok rest => .ok (a ++ rest)

/-- Embedding of `add_missing_slots`.  The global hourly range is
`pd.date_range(min, max, freq=H)`; on an empty input both bounds are
`NaT` and `pd.date_range` raises a `ValueError` (the code defines no
`EmptyInputError`).  Locations are then traversed in order of first
appearance and each slice of one location is reindexed onto the full
range with missing hours filled by 0. -/
def add_missing_slots (agg_rides : List TsRow) : Except PyError (List TsRow) :=
  match minHour (agg_rides.map (fun r => r.pickup_hour)),
      maxHour (agg_rides.map (fun r => r.pickup_hour)) with
  | some lo, some hi =>
    exceptFlat ((uniqueFirst (agg_rides.map (fun r => r.pickup_location_id))).map
      (fun location_id =>
        densifyOne ((List.range (hi + 1 - lo)).map (fun j => lo + j)) location_id
          (agg_rides.filter (fun r => r.pickup_location_id == location_id))))
  | _, _ => .error .valueError

/-- Fuel-driven base-2 logarithm: `log2fuel fuel n` equals the floor
of the base-2 logarithm of `n` whenever `n ≤ fuel` (each step halves
`n`, so the fuel is never exhausted first). -/
def log2fuel : Nat → Nat → Nat
  | 0, _ => 0
  | fuel + 1, n => if 2 ≤ n then log2fuel fuel (n / 2) + 1 else 0

/-- Floor of the base-2 logarithm of a positive natural number. -/
def floorLog2 (n : Nat) : Nat :=
  log2fuel n n

/-- Rounding of a natural number to the nearest IEEE-754 binary32
value (round to nearest, ties to even), returned as a natural number.
This models storing an integer ride count in the `np.float32` buffers
`x` and `y` of the slicer.  Integers up to `2 ^ 24` are represented
exactly; above that the 24-bit significand forces rounding to a
multiple of the unit in the last place.  (The overflow threshold of
binary32, near `2 ^ 128`, is not modelled; every value the theorems
evaluate lies far below it.) -/
def roundFloat32 (n : Nat) : Nat :=
  if n ≤ 2 ^ 24 then n
  else
    let ulp := 2 ^ (floorLog2 n - 23)
    let q := n / ulp
    let r := n % ulp
    if r * 2 < ulp then q * ulp
    else if ulp < r * 2 then (q + 1) * ulp
    else if q % 2 = 0 then q * ulp
    else (q + 1) * ulp

/-- The while loop of `get_cutoff_indices_features_and_target`,
appending `(subseq_first_idx, subseq_mid_idx, subseq_last_idx)` and
advancing all three indices by `step_size` while
`subseq_last_idx <= stop_position`.  The structural `fuel` argument
bounds the number of iterations; the caller passes the series length,
which is enough for every positive `step_size` (for `step_size = 0`
the Python loop would not terminate). -/
def cutoffLoop : Nat → Nat → Nat → Nat → Nat → Nat → List (Nat × Nat × Nat)
  | 0, _, _, _, _, _ => []
  | fuel + 1, subseq_first_idx, subseq_mid_idx, subseq_last_idx, stop_position, step_size =>
    if subseq_last_idx ≤ stop_position then
      (subseq_first_idx, subseq_mid_idx, subseq_last_idx) ::
        cutoffLoop fuel (subseq_first_idx + step_size) (subseq_mid_idx + step_size)
          (subseq_last_idx + step_size) stop_position step_size
    else []

/-- Embedding of `get_cutoff_indices_features_and_target`:
`stop_position = len(data) - 1`, the first triple starts at index 0
with `subseq_mid_idx = input_seq_len` and
`subseq_last_idx = input_seq_len + 1`. -/
def get_cutoff_indices_features_and_target (data : List TsRow)
    (input_seq_len step_size : Nat) : List (Nat × Nat × Nat) :=
  cutoffLoop data.length 0 input_seq_len (input_seq_len + 1) (data.length - 1) step_size

/-- Number of cutoff triples the loop produces for a series of length
`L`: zero unless `L ≥ input_seq_len + 2`, and otherwise
`(L - input_seq_len - 2) / step_size + 1`; over the integers this is
`max 0 (floor ((L - input_seq_len - 2) / step_size) + 1)`. -/
def cutoffCount (L input_seq_len step_size : Nat) : Nat :=
  if input_seq_len + 1 ≤ L - 1 then (L - 1 - (input_seq_len + 1)) / step_size + 1 else 0

/-- The per-location window count asserted by the documentation:
`max(0, floor((L - input_seq_len - 1) / step_size) + 1)`. -/
def claimedWindowCount (L input_seq_len step_size : Nat) : Int :=
  max 0 (Int.fdiv ((L : Int) - input_seq_len - 1) step_size + 1)

/-- A pandas table: column labels plus typed rows.  Only the labels
are inspected by the schema assertion, before any row access. -/
structure DataFrame (α : Type) where
  cols : List String
  rows : List α

/-- One row of the features table produced by the slicer: the window
values in column order (see `featureColumns`), the recorded
`pickup_hour` and the `pickup_location_id`. -/
structure FeatureRow where
  window : List Nat
  pickup_hour : Nat
  pickup_location_id : Nat
  deriving DecidableEq

/-- The column set required by the assertion in
`transform_ts_data_into_features_and_target`. -/
def requiredCols : List String :=
  ["pickup_hour", "rides", "pickup_location_id"]

/-- Python set equality of two column-label lists,
`set(a) == set(b)`. -/
def sameColumnSet (a b : List String) : Bool :=
  a.all (fun c => c ∈ b) && b.all (fun c => c ∈ a)

/-- The feature column labels generated by the comprehension
`[rides_previous_(i+1)_hour for i in reversed(range(input_seq_len))]`:
the first column is `rides_previous_input_seq_len_hour` and the last
is `rides_previous_1_hour`. -/
def featureColumns (input_seq_len : Nat) : List String :=
  (List.range input_seq_len).reverse.map
    (fun i => "rides_previous_" ++ toString (i + 1) ++ "_hour")

/-- The slice of the time series belonging to one location,
`ts_data.loc[ts_data.pickup_location_id == location_id, ...]` (the
column projection is immaterial for the row content). -/
def locRows (rows : List TsRow) (location_id : Nat) : List TsRow :=
  rows.filter (fun r => r.pickup_location_id == location_id)

/-- One feature row: window `x[i, :] = iloc[idx[0]:idx[1]].rides`
stored through `np.float32`, the recorded hour `iloc[idx[1]].pickup_hour`
and the location id. -/
def makeFeatureRow (rows_i : List TsRow) (location_id : Nat)
    (idx : Nat × Nat × Nat) : FeatureRow :=
  ⟨((rows_i.drop idx.1).take (idx.2.1 - idx.1)).map (fun r => roundFloat32 r.rides),
    (rows_i.getD idx.2.1 ⟨0, 0, 0⟩).pickup_hour,
    location_id⟩

/-- One target value: `y[i] = iloc[idx[1]:idx[2]].rides` (a single row,
since `idx[2] = idx[1] + 1` and `idx[1]` is in bounds) stored through
`np.float32`. -/
def makeTarget (rows_i : List TsRow) (idx : Nat × Nat × Nat) : Nat :=
  roundFloat32 ((rows_i.getD idx.2.1 ⟨0, 0, 0⟩).rides)

/-- The feature-accumulation loop of the slicer: for each location, in
order of first appearance, every cutoff triple produces one feature
row, and the per-location blocks are concatenated. -/
def featuresList (rows : List TsRow) (input_seq_len step_size : Nat) : List FeatureRow :=
  concatMapL (fun location_id =>
      (get_cutoff_indices_features_and_target (locRows rows location_id)
          input_seq_len step_size).map
        (makeFeatureRow (locRows rows location_id) location_id))
    (uniqueFirst (rows.map (fun r => r.pickup_location_id)))

/-- The target-accumulation loop of the slicer, aligned with
`featuresList`: one target value per cutoff triple. -/
def targetsList (rows : List TsRow) (input_seq_len step_size : Nat) : List Nat :=
  concatMapL (fun location_id =>
      (get_cutoff_indices_features_and_target (locRows rows location_id)
          input_seq_len step_size).map
        (makeTarget (locRows rows location_id)))
    (uniqueFirst (rows.map (fun r => r.pickup_location_id)))

/-- Embedding of `transform_ts_data_into_features_and_target`: the
assertion `set(ts_data.columns) == {pickup_hour, rides,
pickup_location_id}` raises an `AssertionError` when it fails (the
code defines no `SchemaError`); otherwise the features table and the
target column are built location by location. -/
def transform_ts_data_into_features_and_target (ts_data : DataFrame TsRow)
    (input_seq_len step_size : Nat) :
    Except PyError (List FeatureRow × List Nat) :=
  if sameColumnSet ts_data.cols requiredCols then
    .ok (featuresList ts_data.rows input_seq_len step_size,
      targetsList ts_data.rows input_seq_len step_size)
  else .error .assertionError

/-- The scenario series of the documentation: one location (id 1) with
hourly counts 5, 0, 0, 7, 2, 9, 1 at hours 0..6. -/
def exRows7 : List TsRow :=
  [⟨0, 1, 5⟩, ⟨1, 1, 0⟩, ⟨2, 1, 0⟩, ⟨3, 1, 7⟩, ⟨4, 1, 2⟩, ⟨5, 1, 9⟩, ⟨6, 1, 1⟩]

/-- The scenario series as a well-formed slicer input table. -/
def exDf7 : DataFrame TsRow :=
  ⟨requiredCols, exRows7⟩

/-- A table with the extra column `foo` (its rows are never read: the
schema assertion fails first). -/
def fooDf : DataFrame TsRow :=
  ⟨["pickup_hour", "rides", "pickup_location_id", "foo"], []⟩

/-- A dense one-location series whose count at hour 0 is 2 ^ 24 + 1,
the smallest integer not representable in binary32. -/
def bigWindowDf : DataFrame TsRow :=
  ⟨requiredCols, [⟨0, 1, 16777217⟩, ⟨1, 1, 5⟩, ⟨2, 1, 9⟩]⟩

/-- A dense one-location series whose count at hour 1 - the target of
the single produced window - is 2 ^ 24 + 1. -/
def bigTargetDf : DataFrame TsRow :=
  ⟨requiredCols, [⟨0, 1, 5⟩, ⟨1, 1, 16777217⟩, ⟨2, 1, 9⟩]⟩

/-- The densifier scenario of the documentation: location 42 observed
at hours 0 and 3 with counts 4 and 6. -/
def exAgg42 : List TsRow :=
  [⟨0, 42, 4⟩, ⟨3, 42, 6⟩]

/-! Helper lemmas about the loop of the cutoff-index computation. -/

theorem cutoffLoop_eq (fuel : Nat) :
    ∀ (first mid last stop step : Nat), 0 < step → stop + 1 ≤ fuel + last →
      cutoffLoop fuel first mid last stop step =
        (List.range (if last ≤ stop then (stop - last) / step + 1 else 0)).map
          (fun k => (first + k * step, mid + k * step, last + k * step)) := by
  induction fuel with
  | zero =>
    intro first mid last stop step hs hf
    have h : ¬ last ≤ stop := by omega
    simp [cutoffLoop, h]
  | succ fuel ih =>
    intro first mid last stop step hs hf
    by_cases hls : last ≤ stop
    · rw [show cutoffLoop (fuel + 1) first mid last stop step =
          (first, mid, last) ::
            cutoffLoop fuel (first + step) (mid + step) (last + step) stop step from by
        simp [cutoffLoop, hls]]
      rw [ih (first + step) (mid + step) (last + step) stop step hs (by omega)]
      rw [if_pos hls]
      have hsplit : (stop - last) / step + 1 =
          (if last + step ≤ stop then (stop - (last + step)) / step + 1 else 0) + 1 := by
        by_cases h2 : last + step ≤ stop
        · rw [if_pos h2, Nat.div_eq (stop - last) step, if_pos ⟨hs, by omega⟩, Nat.sub_sub]
        · rw [if_neg h2, Nat.div_eq_of_lt (by omega)]
      rw [hsplit, List.range_succ_eq_map, List.map_cons, List.map_map]
      congr 1
      · simp
      · apply List.map_congr_left
        intro k _
        simp only [Function.comp_apply, Nat.succ_eq_add_one, Prod.mk.injEq]
        refine ⟨by ring, by ring, by ring⟩
    · simp [cutoffLoop, hls]

theorem cutoffLoop_mem (fuel : Nat) :
    ∀ {first mid last stop step : Nat} {t : Nat × Nat × Nat},
      t ∈ cutoffLoop fuel first mid last stop step →
      ∃ j, t.1 = first + j * step ∧ t.2.1 = mid + j * step ∧
        t.2.2 = last + j * step ∧ last + j * step ≤ stop := by
  induction fuel with
  | zero =>
    intro first mid last stop step t ht
    simp [cutoffLoop] at ht
  | succ fuel ih =>
    intro first mid last stop step t ht
    by_cases hls : last ≤ stop
    · simp only [cutoffLoop, if_pos hls, List.mem_cons] at ht
      rcases ht with rfl | ht
      · exact ⟨0, by simp, by simp, by simp, by simpa using hls⟩
      · obtain ⟨j, h1, h2, h3, h4⟩ := ih ht
        refine ⟨j + 1, ?_, ?_, ?_, ?_⟩
        · rw [h1]; ring
        · rw [h2]; ring
        · rw [h3]; ring
        · have hm : (j + 1) * step = j * step + step := by ring
          rw [hm]
          omega
    · simp [cutoffLoop, hls] at ht

theorem get_cutoff_eq (data : List TsRow) (input_seq_len step_size : Nat)
    (hs : 0 < step_size) :
    get_cutoff_indices_features_and_target data input_seq_len step_size =
      (List.range (cutoffCount data.length input_seq_len step_size)).map
        (fun k => (k * step_size, input_seq_len + k * step_size,
          input_seq_len + 1 + k * step_size)) := by
  unfold get_cutoff_indices_features_and_target cutoffCount
  rw [cutoffLoop_eq data.length 0 input_seq_len (input_seq_len + 1) (data.length - 1)
    step_size hs (by omega)]
  apply List.map_congr_left
  intro k _
  simp

theorem get_cutoff_length (data : List TsRow) (input_seq_len step_size : Nat)
    (hs : 0 < step_size) :
    (get_cutoff_indices_features_and_target data input_seq_len step_size).length =
      cutoffCount data.length input_seq_len step_size := by
  rw [get_cutoff_eq data input_seq_len step_size hs]
  simp

theorem get_cutoff_mem {data : List TsRow} {input_seq_len step_size : Nat}
    {t : Nat × Nat × Nat}
    (ht : t ∈ get_cutoff_indices_features_and_target data input_seq_len step_size) :
    ∃ j, t.1 = j * step_size ∧ t.2.1 = input_seq_len + j * step_size ∧
      t.2.2 = input_seq_len + 1 + j * step_size ∧
      t.2.2 ≤ data.length - 1 ∧ 2 ≤ data.length := by
  obtain ⟨j, h1, h2, h3, h4⟩ := cutoffLoop_mem data.length ht
  refine ⟨j, by simpa using h1, h2, h3, by omega, by omega⟩

/-! Helper lemmas about the accumulation helpers. -/

theorem concatMapL_length {α β : Type} (f : α → List β) (l : List α) :
    (concatMapL f l).length = (l.map (fun a => (f a).length)).sum := by
  induction l with
  | nil => rfl
  | cons x xs ih => simp [concatMapL, ih]

theorem mem_concatMapL {α β : Type} {f : α → List β} {l : List α} {b : β} :
    b ∈ concatMapL f l ↔ ∃ a ∈ l, b ∈ f a := by
  induction l with
  | nil => simp [concatMapL]
  | cons x xs ih => simp [concatMapL, ih]

theorem filter_concatMapL {α β : Type} (p : β → Bool) (f : α → List β) (l : List α) :
    (concatMapL f l).filter p = concatMapL (fun a => (f a).filter p) l := by
  induction l with
  | nil => rfl
  | cons x xs ih => simp [concatMapL, List.filter_append, ih]

theorem concatMapL_eq_nil {α β : Type} {g : α → List β} {l : List α}
    (h : ∀ x ∈ l, g x = []) : concatMapL g l = [] := by
  induction l with
  | nil => rfl
  | cons x xs ih =>
    simp [concatMapL, h x (List.mem_cons_self x xs),
      ih (fun y hy => h y (List.mem_cons_of_mem x hy))]

theorem concatMapL_eq_single {α β : Type} [DecidableEq α] {g : α → List β} {l : List α}
    {a : α} (hn : l.Nodup) (ha : a ∈ l) (h : ∀ x ∈ l, x ≠ a → g x = []) :
    concatMapL g l = g a := by
  induction l with
  | nil => cases ha
  | cons x xs ih =>
    rcases List.mem_cons.mp ha with rfl | hmem
    · have hnil : concatMapL g xs = [] :=
        concatMapL_eq_nil (fun y hy =>
          h y (List.mem_cons_of_mem a hy)
            (fun he => (List.nodup_cons.mp hn).1 (he ▸ hy)))
      simp [concatMapL, hnil]
    · have hxa : x ≠ a := fun he => (List.nodup_cons.mp hn).1 (he ▸ hmem)
      simp [concatMapL, h x (List.mem_cons_self x xs) hxa,
        ih (List.nodup_cons.mp hn).2 hmem
          (fun y hy hya => h y (List.mem_cons_of_mem x hy) hya)]

theorem exceptFlat_ok {ε α β : Type} (l : List β) (f : β → Except ε (List α))
    (g : β → List α) (h : ∀ x ∈ l, f x = .ok (g x)) :
    exceptFlat (l.map f) = .ok (concatMapL g l) := by
  induction l with
  | nil => rfl
  | cons x xs ih =>
    have hx := h x (List.mem_cons_self x xs)
    have hxs := ih (fun y hy => h y (List.mem_cons_of_mem x hy))
    simp [exceptFlat, hx, hxs, concatMapL]

theorem sum_map_const {α : Type} (l : List α) (n : Nat) :
    (l.map (fun _ => n)).sum = l.length * n := by
  induction l with
  | nil => simp
  | cons x xs ih =>
    simp [ih]
    ring

/-! Helper lemmas about `uniqueFirst`. -/

theorem mem_uniqueFirstAux {l : List Nat} :
    ∀ {seen : List Nat} {a : Nat}, a ∈ uniqueFirstAux seen l ↔ a ∈ l ∧ a ∉ seen := by
  induction l with
  | nil => intro seen a; simp [uniqueFirstAux]
  | cons x xs ih =>
    intro seen a
    by_cases hx : x ∈ seen
    · rw [uniqueFirstAux, if_pos hx, ih, List.mem_cons]
      constructor
      · rintro ⟨h1, h2⟩
        exact ⟨Or.inr h1, h2⟩
      · rintro ⟨h1, h2⟩
        rcases h1 with rfl | h1
        · exact absurd hx h2
        · exact ⟨h1, h2⟩
    · rw [uniqueFirstAux, if_neg hx, List.mem_cons, ih]
      constructor
      · rintro (rfl | ⟨h1, h2⟩)
        · exact ⟨List.mem_cons_self a xs, hx⟩
        · exact ⟨List.mem_cons_of_mem x h1, fun hs => h2 (List.mem_cons_of_mem x hs)⟩
      · rintro ⟨h1, h2⟩
        rcases List.mem_cons.mp h1 with rfl | h1
        · exact Or.inl rfl
        · by_cases hax : a = x
          · exact Or.inl hax
          · refine Or.inr ⟨h1, fun hc => ?_⟩
            rcases List.mem_cons.mp hc with hc | hc
            · exact hax hc
            · exact h2 hc

theorem nodup_uniqueFirstAux (l : List Nat) :
    ∀ (seen : List Nat), (uniqueFirstAux seen l).Nodup := by
  induction l with
  | nil => intro seen; simp [uniqueFirstAux]
  | cons x xs ih =>
    intro seen
    by_cases hx : x ∈ seen
    · rw [uniqueFirstAux, if_pos hx]
      exact ih seen
    · rw [uniqueFirstAux, if_neg hx, List.nodup_cons]
      refine ⟨?_, ih (x :: seen)⟩
      rw [mem_uniqueFirstAux]
      rintro ⟨-, h2⟩
      exact h2 (List.mem_cons_self x seen)

theorem mem_uniqueFirst {l : List Nat} {a : Nat} : a ∈ uniqueFirst l ↔ a ∈ l := by
  rw [uniqueFirst, mem_uniqueFirstAux]
  simp

theorem nodup_uniqueFirst (l : List Nat) : (uniqueFirst l).Nodup :=
  nodup_uniqueFirstAux l []

/-! Helper lemmas about filtering, searching and the hourly range. -/

theorem filter_beq_of_nodup {l : List Nat} {a : Nat} (hn : l.Nodup) (ha : a ∈ l) :
    l.filter (fun x => x == a) = [a] := by
  induction l with
  | nil => cases ha
  | cons x xs ih =>
    rcases List.mem_cons.mp ha with rfl | hmem
    · have hnil : xs.filter (fun y => y == a) = [] := by
        rw [List.filter_eq_nil_iff]
        intro y hy
        have hne : y ≠ a := fun he => (List.nodup_cons.mp hn).1 (he ▸ hy)
        simp [hne]
      simp [List.filter_cons, hnil]
    · have hxa : (x == a) = false := by
        have hne : x ≠ a := fun he => (List.nodup_cons.mp hn).1 (he ▸ hmem)
        simp [hne]
      simp [List.filter_cons, hxa, ih (List.nodup_cons.mp hn).2 hmem]

theorem findFilterEq {α : Type} (p q : α → Bool) (l : List α) :
    (l.filter p).find? q = l.find? (fun a => p a && q a) := by
  induction l with
  | nil => rfl
  | cons x xs ih =>
    by_cases hp : p x
    · by_cases hq : q x
      · simp [List.filter_cons, hp, List.find?_cons, hq]
      · simp [List.filter_cons, hp, List.find?_cons, hq, ih]
    · simp [List.filter_cons, hp, ih]

theorem findCongrEq {α : Type} {p q : α → Bool} (h : ∀ a, p a = q a) (l : List α) :
    l.find? p = l.find? q := by
  induction l with
  | nil => rfl
  | cons x xs ih => simp [List.find?_cons, h x, ih]

theorem mem_fullRange {lo hi H : Nat} :
    H ∈ (List.range (hi + 1 - lo)).map (fun j => lo + j) ↔ lo ≤ H ∧ H ≤ hi := by
  simp only [List.mem_map, List.mem_range]
  constructor
  · rintro ⟨j, hj, rfl⟩
    omega
  · rintro ⟨h1, h2⟩
    exact ⟨H - lo, by omega, by omega⟩

theorem nodup_fullRange (lo hi : Nat) :
    ((List.range (hi + 1 - lo)).map (fun j => lo + j)).Nodup :=
  (List.nodup_range _).map (fun a b h => by omega)

/-- A list of rows without duplicate (hour, location) pairs has no
duplicate hour inside the slice of any one location. -/
theorem nodup_hours_of_nodup_pairs {agg : List TsRow}
    (hp : (agg.map (fun r => (r.pickup_hour, r.pickup_location_id))).Nodup)
    (location_id : Nat) :
    (((agg.filter (fun r => r.pickup_location_id == location_id)).map
      (fun r => r.pickup_hour))).Nodup := by
  have hsub :
      ((agg.filter (fun r => r.pickup_location_id == location_id)).map
          (fun r => (r.pickup_hour, r.pickup_location_id))).Sublist
        (agg.map (fun r => (r.pickup_hour, r.pickup_location_id))) :=
    (List.filter_sublist agg).map _
  have hps := hp.sublist hsub
  have h1 := List.pairwise_map.mp hps
  refine List.pairwise_map.mpr (List.Pairwise.imp_of_mem ?_ h1)
  intro a b ha hb hne heq
  have hla : a.pickup_location_id = location_id := by
    have := (List.mem_filter.mp ha).2
    simpa using this
  have hlb : b.pickup_location_id = location_id := by
    have := (List.mem_filter.mp hb).2
    simpa using this
  exact hne (by rw [heq, hla, hlb])

/-! Helper lemmas about dense series, float32 rounding and windows. -/

theorem roundFloat32_of_le {n : Nat} (h : n ≤ 2 ^ 24) : roundFloat32 n = n := by
  unfold roundFloat32
  rw [if_pos h]

theorem dense_getD_add (rows : List TsRow)
    (hd : ∀ i < rows.length - 1,
      (rows.getD (i + 1) ⟨0, 0, 0⟩).pickup_hour =
        (rows.getD i ⟨0, 0, 0⟩).pickup_hour + 1)
    (a n : Nat) (h : a + n < rows.length) :
    (rows.getD (a + n) ⟨0, 0, 0⟩).pickup_hour =
      (rows.getD a ⟨0, 0, 0⟩).pickup_hour + n := by
  induction n with
  | zero => rfl
  | succ n ih =>
    have h1 : a + n < rows.length := by omega
    have h2 : a + n < rows.length - 1 := by omega
    have h3 := hd (a + n) h2
    have h4 : a + (n + 1) = (a + n) + 1 := rfl
    rw [h4, h3, ih h1]
    omega

theorem getD_mem {l : List TsRow} {n : Nat} (h : n < l.length) :
    l.getD n ⟨0, 0, 0⟩ ∈ l := by
  rw [List.getD_eq_getElem _ _ h]
  exact List.getElem_mem h

theorem makeFeatureRow_window_length (rows_i : List TsRow) (location_id : Nat)
    (idx : Nat × Nat × Nat) (hm : idx.2.1 ≤ rows_i.length) :
    (makeFeatureRow rows_i location_id idx).window.length = idx.2.1 - idx.1 := by
  unfold makeFeatureRow
  simp only [List.length_map, List.length_take, List.length_drop]
  omega

theorem makeFeatureRow_window_getD (rows_i : List TsRow) (location_id : Nat)
    (idx : Nat × Nat × Nat) (j : Nat) (hm : idx.2.1 ≤ rows_i.length)
    (hj : j < idx.2.1 - idx.1) :
    (makeFeatureRow rows_i location_id idx).window.getD j 0 =
      roundFloat32 ((rows_i.getD (idx.1 + j) ⟨0, 0, 0⟩).rides) := by
  unfold makeFeatureRow
  simp only
  rw [List.getD_eq_getElem?_getD, List.getElem?_map, List.getElem?_take, if_pos hj,
    List.getElem?_drop]
  have hlt : idx.1 + j < rows_i.length := by omega
  rw [List.getElem?_eq_getElem hlt, List.getD_eq_getElem _ _ hlt]
  rfl

theorem transform_eq_ok (ts_data : DataFrame TsRow) (input_seq_len step_size : Nat)
    (hcols : sameColumnSet ts_data.cols requiredCols = true) :
    transform_ts_data_into_features_and_target ts_data input_seq_len step_size =
      .ok (featuresList ts_data.rows input_seq_len step_size,
        targetsList ts_data.rows input_seq_len step_size) := by
  simp [transform_ts_data_into_features_and_target, hcols]

/-! The claims. -/

/-- C6: for every series of length `L` and positive `input_seq_len`
and `step_size`, `get_cutoff_indices_features_and_target` returns
exactly the triples `(start, start + input_seq_len,
start + input_seq_len + 1)` with `start = k * step_size` for
`k = 0, 1, ...`, stopping once the end index exceeds `L - 1`
(`cutoffCount` counts the iterations of that stopping rule); in
particular when `L ≤ input_seq_len + 1` it returns no triple and no
error. -/
theorem get_cutoff_indices_closed_form (data : List TsRow) (input_seq_len step_size : Nat)
    (hs : 0 < step_size) :
    get_cutoff_indices_features_and_target data input_seq_len step_size =
      (List.range (cutoffCount data.length input_seq_len step_size)).map
        (fun k => (k * step_size, k * step_size + input_seq_len,
          k * step_size + input_seq_len + 1)) ∧
    (data.length ≤ input_seq_len + 1 →
      get_cutoff_indices_features_and_target data input_seq_len step_size = []) := by
  constructor
  · rw [get_cutoff_eq data input_seq_len step_size hs]
    apply List.map_congr_left
    intro k _
    simp only [Prod.mk.injEq]
    refine ⟨trivial, by ring, by ring⟩
  · intro hL
    rw [get_cutoff_eq data input_seq_len step_size hs]
    have hc : cutoffCount data.length input_seq_len step_size = 0 := by
      unfold cutoffCount
      rw [if_neg (by omega)]
    rw [hc]
    rfl

/-- Witness for C6 on the documented scenario series. -/
theorem get_cutoff_indices_closed_form_witness :
    (get_cutoff_indices_features_and_target exRows7 3 1 =
      (List.range (cutoffCount exRows7.length 3 1)).map
        (fun k => (k * 1, k * 1 + 3, k * 1 + 3 + 1))) ∧
    (exRows7.length ≤ 3 + 1 →
      get_cutoff_indices_features_and_target exRows7 3 1 = []) :=
  get_cutoff_indices_closed_form exRows7 3 1 (by decide)

/-- C10: every returned triple `(start, mid, end)` satisfies
`end ≤ L - 1` (hence `end < L`, so the feature slice `[start, mid)`
and the target slice `[mid, end)` are in bounds; the start index is a
natural number, hence trivially non-negative), and `mid < L - 1`, so
the final row of the series is never used as a target. -/
theorem cutoff_indices_in_bounds (data : List TsRow) (input_seq_len step_size : Nat)
    (t : Nat × Nat × Nat)
    (ht : t ∈ get_cutoff_indices_features_and_target data input_seq_len step_size) :
    t.2.2 ≤ data.length - 1 ∧ t.2.2 < data.length ∧ t.2.1 < data.length - 1 := by
  obtain ⟨j, h1, h2, h3, h4, h5⟩ := get_cutoff_mem ht
  generalize hjs : j * step_size = m at h2 h3
  omega

/-- Witness for C10: the first triple of the scenario series. -/
theorem cutoff_indices_in_bounds_witness :
    ((0, 3, 4) : Nat × Nat × Nat).2.2 ≤ exRows7.length - 1 ∧
      ((0, 3, 4) : Nat × Nat × Nat).2.2 < exRows7.length ∧
      ((0, 3, 4) : Nat × Nat × Nat).2.1 < exRows7.length - 1 :=
  cutoff_indices_in_bounds exRows7 3 1 (0, 3, 4) (by decide)

/-- C2 counterexample: on an empty input `add_missing_slots` does not
raise the `EmptyInputError` named by the documentation - no such
error class exists in the code. -/
theorem add_missing_slots_empty_not_emptyInputError :
    ¬ (add_missing_slots [] = Except.error PyError.emptyInputError) := by
  decide

/-- C2 amended: on an empty input `add_missing_slots` fails with the
`ValueError` that `pd.date_range` raises on `NaT` bounds, rather than
exhibiting undefined behavior. -/
theorem add_missing_slots_empty_valueError :
    add_missing_slots [] = Except.error PyError.valueError := rfl

/-- C3 counterexample: on a table with the extra column `foo` the
slicer does not raise the `SchemaError` named by the documentation -
no such error class exists in the code. -/
theorem transform_extra_column_not_schemaError :
    ¬ (transform_ts_data_into_features_and_target fooDf 3 1 =
      Except.error PyError.schemaError) := by
  decide

/-- C3 amended: whenever the column set of the input differs from
`{pickup_hour, rides, pickup_location_id}` the slicer raises the
`AssertionError` of its `assert` statement. -/
theorem transform_bad_columns_assertionError (ts_data : DataFrame TsRow)
    (input_seq_len step_size : Nat)
    (h : sameColumnSet ts_data.cols requiredCols = false) :
    transform_ts_data_into_features_and_target ts_data input_seq_len step_size =
      Except.error PyError.assertionError := by
  simp [transform_ts_data_into_features_and_target, h]

/-- Witness for the amended C3: the table with the extra column
`foo`. -/
theorem transform_bad_columns_assertionError_witness :
    transform_ts_data_into_features_and_target fooDf 3 1 =
      Except.error PyError.assertionError :=
  transform_bad_columns_assertionError fooDf 3 1 (by decide)

/-- C4: for December the upper bound built by `validate_raw_data` is
the string `year-13-01`, an invalid date, so the comparison raises a
`ValueError` instead of passing the rows of
`[year-12-01, (year+1)-01-01)` downstream: here a row dated
2022-12-15 - inside the claimed interval - reaches no downstream
consumer because the whole call fails. -/
theorem validate_raw_data_december_valueError :
    validate_raw_data [⟨some ⟨2022, 12, 15⟩, 7⟩] 2022 12 =
      Except.error PyError.valueError := rfl

theorem featuresList_length (rows : List TsRow) (input_seq_len step_size : Nat)
    (hs : 0 < step_size) :
    (featuresList rows input_seq_len step_size).length =
      ((uniqueFirst (rows.map (fun r => r.pickup_location_id))).map
        (fun l => cutoffCount (locRows rows l).length input_seq_len step_size)).sum := by
  unfold featuresList
  rw [concatMapL_length]
  congr 1
  apply List.map_congr_left
  intro l _
  rw [List.length_map, get_cutoff_length _ _ _ hs]

theorem targetsList_length (rows : List TsRow) (input_seq_len step_size : Nat)
    (hs : 0 < step_size) :
    (targetsList rows input_seq_len step_size).length =
      ((uniqueFirst (rows.map (fun r => r.pickup_location_id))).map
        (fun l => cutoffCount (locRows rows l).length input_seq_len step_size)).sum := by
  unfold targetsList
  rw [concatMapL_length]
  congr 1
  apply List.map_congr_left
  intro l _
  rw [List.length_map, get_cutoff_length _ _ _ hs]

theorem features_targets_length_eq (rows : List TsRow) (input_seq_len step_size : Nat) :
    (featuresList rows input_seq_len step_size).length =
      (targetsList rows input_seq_len step_size).length := by
  unfold featuresList targetsList
  rw [concatMapL_length, concatMapL_length]
  congr 1
  apply List.map_congr_left
  intro l _
  simp

/-- C1 counterexample: on the documented scenario series (one
location, length 7) with `input_seq_len = 3` and `step_size = 1` the
slicer produces 3 feature rows, while the documented formula
`max(0, floor((L - input_seq_len - 1)/step_size) + 1)` gives 4. -/
theorem rowCount_formula_counterexample :
    (transform_ts_data_into_features_and_target exDf7 3 1).toOption.map
        (fun p => (p.1.length : Int)) = some 3 ∧
    claimedWindowCount 7 3 1 = 4 ∧
    ¬ ((transform_ts_data_into_features_and_target exDf7 3 1).toOption.map
        (fun p => (p.1.length : Int)) = some (claimedWindowCount 7 3 1)) := by
  refine ⟨by decide, by decide, by decide⟩

/-- C1 amended: when every location of the input carries a series of
length `L`, the number of feature rows equals the number of target
rows, and both equal the number of locations times
`cutoffCount L input_seq_len step_size`, that is, times
`max(0, floor((L - input_seq_len - 2)/step_size) + 1)`. -/
theorem transform_row_counts (ts_data : DataFrame TsRow)
    (input_seq_len step_size L : Nat)
    (hcols : sameColumnSet ts_data.cols requiredCols = true)
    (hstep : 0 < step_size)
    (hlen : ∀ l ∈ uniqueFirst (ts_data.rows.map (fun r => r.pickup_location_id)),
      (locRows ts_data.rows l).length = L) :
    (transform_ts_data_into_features_and_target ts_data input_seq_len step_size).toOption.map
        (fun p => (p.1.length, p.2.length)) =
      some ((uniqueFirst (ts_data.rows.map (fun r => r.pickup_location_id))).length *
          cutoffCount L input_seq_len step_size,
        (uniqueFirst (ts_data.rows.map (fun r => r.pickup_location_id))).length *
          cutoffCount L input_seq_len step_size) := by
  have hsum :
      ((uniqueFirst (ts_data.rows.map (fun r => r.pickup_location_id))).map
          (fun l => cutoffCount (locRows ts_data.rows l).length input_seq_len step_size)).sum =
        (uniqueFirst (ts_data.rows.map (fun r => r.pickup_location_id))).length *
          cutoffCount L input_seq_len step_size := by
    rw [List.map_congr_left
      (fun l hl => by rw [hlen l hl] :
        ∀ l ∈ uniqueFirst (ts_data.rows.map (fun r => r.pickup_location_id)),
          cutoffCount (locRows ts_data.rows l).length input_seq_len step_size =
            cutoffCount L input_seq_len step_size)]
    exact sum_map_const _ _
  have hf := featuresList_length ts_data.rows input_seq_len step_size hstep
  have ht := targetsList_length ts_data.rows input_seq_len step_size hstep
  rw [transform_eq_ok ts_data input_seq_len step_size hcols]
  simp [Except.toOption, hf, ht, hsum]

/-- Witness for the amended C1 on the scenario series. -/
theorem transform_row_counts_witness :
    (transform_ts_data_into_features_and_target exDf7 3 1).toOption.map
        (fun p => (p.1.length, p.2.length)) =
      some ((uniqueFirst (exDf7.rows.map (fun r => r.pickup_location_id))).length *
          cutoffCount 7 3 1,
        (uniqueFirst (exDf7.rows.map (fun r => r.pickup_location_id))).length *
          cutoffCount 7 3 1) :=
  transform_row_counts exDf7 3 1 7 (by decide) (by decide) (by decide)

/-- C9 counterexample: a target count of 2 ^ 24 + 1 = 16777217 is
stored in the `np.float32` target buffer as 16777216 - the value is
silently rounded, so windows and targets do not always hold the exact
input integers. -/
theorem target_float32_rounding_counterexample :
    (transform_ts_data_into_features_and_target bigTargetDf 1 1).toOption.map
        (fun p => p.2) = some [16777216] ∧
    ¬ ((transform_ts_data_into_features_and_target bigTargetDf 1 1).toOption.map
        (fun p => p.2) = some [16777217]) := by
  refine ⟨by decide, by decide⟩

/-- C9 amended: when every ride count of the input is at most
`2 ^ 24` (the largest range of integers binary32 represents exactly)
each produced feature window and target holds exactly the input
integer values, with no rounding, and the slicer succeeds. -/
theorem transform_exact_values_small_counts (ts_data : DataFrame TsRow)
    (input_seq_len step_size location_id : Nat) (idx : Nat × Nat × Nat)
    (hcols : sameColumnSet ts_data.cols requiredCols = true)
    (hcounts : ∀ r ∈ ts_data.rows, r.rides ≤ 2 ^ 24)
    (hidx : idx ∈ get_cutoff_indices_features_and_target
      (locRows ts_data.rows location_id) input_seq_len step_size) :
    (makeFeatureRow (locRows ts_data.rows location_id) location_id idx).window =
      (((locRows ts_data.rows location_id).drop idx.1).take (idx.2.1 - idx.1)).map
        (fun r => r.rides) ∧
    makeTarget (locRows ts_data.rows location_id) idx =
      ((locRows ts_data.rows location_id).getD idx.2.1 ⟨0, 0, 0⟩).rides ∧
    (transform_ts_data_into_features_and_target ts_data
      input_seq_len step_size).toOption.isSome = true := by
  obtain ⟨j, h1, h2, h3, h4, h5⟩ := get_cutoff_mem hidx
  generalize hjs : j * step_size = js at h1 h2 h3
  have hmlen : idx.2.1 < (locRows ts_data.rows location_id).length := by omega
  have hsub : ∀ r ∈ locRows ts_data.rows location_id, r.rides ≤ 2 ^ 24 := by
    intro r hr
    exact hcounts r (List.mem_filter.mp hr).1
  refine ⟨?_, ?_, ?_⟩
  · unfold makeFeatureRow
    simp only
    apply List.map_congr_left
    intro r hr
    exact roundFloat32_of_le (hsub r (List.mem_of_mem_drop (List.mem_of_mem_take hr)))
  · unfold makeTarget
    exact roundFloat32_of_le (hsub _ (getD_mem hmlen))
  · rw [transform_eq_ok ts_data input_seq_len step_size hcols]
    rfl

/-- Witness for the amended C9: the first window of the scenario
series. -/
theorem transform_exact_values_small_counts_witness :
    (makeFeatureRow (locRows exDf7.rows 1) 1 (0, 3, 4)).window =
      (((locRows exDf7.rows 1).drop 0).take 3).map (fun r => r.rides) ∧
    makeTarget (locRows exDf7.rows 1) (0, 3, 4) =
      ((locRows exDf7.rows 1).getD 3 ⟨0, 0, 0⟩).rides ∧
    (transform_ts_data_into_features_and_target exDf7 3 1).toOption.isSome = true :=
  transform_exact_values_small_counts exDf7 3 1 1 (0, 3, 4) (by decide) (by decide)
    (by decide)

/-- C7: on a dense per-location hourly series every produced feature
row has a window of exactly `input_seq_len` entries, and its recorded
`pickup_hour` (the target hour, taken at the middle index) equals the
hour of the last row contributing to the window (index `mid - 1`)
plus one. -/
theorem transform_window_length_contiguity (ts_data : DataFrame TsRow)
    (input_seq_len step_size location_id : Nat) (idx : Nat × Nat × Nat)
    (hcols : sameColumnSet ts_data.cols requiredCols = true)
    (hisl : 0 < input_seq_len)
    (hl : location_id ∈ ts_data.rows.map (fun r => r.pickup_location_id))
    (hdense : ∀ i < (locRows ts_data.rows location_id).length - 1,
      ((locRows ts_data.rows location_id).getD (i + 1) ⟨0, 0, 0⟩).pickup_hour =
        ((locRows ts_data.rows location_id).getD i ⟨0, 0, 0⟩).pickup_hour + 1)
    (hidx : idx ∈ get_cutoff_indices_features_and_target
      (locRows ts_data.rows location_id) input_seq_len step_size) :
    makeFeatureRow (locRows ts_data.rows location_id) location_id idx ∈
      ((transform_ts_data_into_features_and_target ts_data
        input_seq_len step_size).toOption.getD ([], [])).1 ∧
    (makeFeatureRow (locRows ts_data.rows location_id) location_id idx).window.length =
      input_seq_len ∧
    (makeFeatureRow (locRows ts_data.rows location_id) location_id idx).pickup_hour =
      ((locRows ts_data.rows location_id).getD (idx.2.1 - 1) ⟨0, 0, 0⟩).pickup_hour + 1 := by
  obtain ⟨j, h1, h2, h3, h4, h5⟩ := get_cutoff_mem hidx
  generalize hjs : j * step_size = js at h1 h2 h3
  refine ⟨?_, ?_, ?_⟩
  · rw [transform_eq_ok ts_data input_seq_len step_size hcols]
    simp only [Except.toOption, Option.getD_some]
    unfold featuresList
    rw [mem_concatMapL]
    exact ⟨location_id, mem_uniqueFirst.mpr hl, List.mem_map_of_mem _ hidx⟩
  · rw [makeFeatureRow_window_length _ _ _ (by omega)]
    omega
  · have hd := hdense (idx.2.1 - 1) (by omega)
    have he : idx.2.1 - 1 + 1 = idx.2.1 := by omega
    rw [he] at hd
    rw [show (makeFeatureRow (locRows ts_data.rows location_id) location_id idx).pickup_hour =
      ((locRows ts_data.rows location_id).getD idx.2.1 ⟨0, 0, 0⟩).pickup_hour from rfl]
    exact hd

/-- Witness for C7: the first window of the scenario series. -/
theorem transform_window_length_contiguity_witness :
    makeFeatureRow (locRows exDf7.rows 1) 1 (0, 3, 4) ∈
      ((transform_ts_data_into_features_and_target exDf7 3 1).toOption.getD ([], [])).1 ∧
    (makeFeatureRow (locRows exDf7.rows 1) 1 (0, 3, 4)).window.length = 3 ∧
    (makeFeatureRow (locRows exDf7.rows 1) 1 (0, 3, 4)).pickup_hour =
      ((locRows exDf7.rows 1).getD 2 ⟨0, 0, 0⟩).pickup_hour + 1 :=
  transform_window_length_contiguity exDf7 3 1 1 (0, 3, 4) (by decide) (by decide)
    (by decide) (by decide) (by decide)

/-- C8 counterexample: with a count of 2 ^ 24 + 1 = 16777217 one hour
before the target, the column `rides_previous_1_hour` holds the
`np.float32` value 16777216, not the observed count. -/
theorem feature_column_float32_counterexample :
    (transform_ts_data_into_features_and_target bigWindowDf 1 1).toOption.map
        (fun p => p.1.map (fun fr => fr.window)) = some [[16777216]] ∧
    ¬ ((transform_ts_data_into_features_and_target bigWindowDf 1 1).toOption.map
        (fun p => p.1.map (fun fr => fr.window)) = some [[16777217]]) := by
  refine ⟨by decide, by decide⟩

/-- C8 amended: on a dense series with counts at most `2 ^ 24` (so
that the float32 buffers are exact), for every `N` between 1 and
`input_seq_len` the column `rides_previous_N_hour` sits at position
`input_seq_len - N` and there the window holds the ride count of the
row at index `mid - N`, which is the count observed exactly `N` hours
before the recorded target hour; the feature row also carries the
target hour as `pickup_hour` and the location id, and the features
and targets have equal row counts. -/
theorem transform_feature_columns (ts_data : DataFrame TsRow)
    (input_seq_len step_size location_id N : Nat) (idx : Nat × Nat × Nat)
    (hcols : sameColumnSet ts_data.cols requiredCols = true)
    (hcounts : ∀ r ∈ ts_data.rows, r.rides ≤ 2 ^ 24)
    (hdense : ∀ i < (locRows ts_data.rows location_id).length - 1,
      ((locRows ts_data.rows location_id).getD (i + 1) ⟨0, 0, 0⟩).pickup_hour =
        ((locRows ts_data.rows location_id).getD i ⟨0, 0, 0⟩).pickup_hour + 1)
    (hN1 : 1 ≤ N) (hN2 : N ≤ input_seq_len)
    (hidx : idx ∈ get_cutoff_indices_features_and_target
      (locRows ts_data.rows location_id) input_seq_len step_size) :
    (featureColumns input_seq_len)[input_seq_len - N]? =
      some ("rides_previous_" ++ toString N ++ "_hour") ∧
    (makeFeatureRow (locRows ts_data.rows location_id) location_id idx).window.getD
        (input_seq_len - N) 0 =
      ((locRows ts_data.rows location_id).getD (idx.2.1 - N) ⟨0, 0, 0⟩).rides ∧
    ((locRows ts_data.rows location_id).getD (idx.2.1 - N) ⟨0, 0, 0⟩).pickup_hour + N =
      (makeFeatureRow (locRows ts_data.rows location_id) location_id idx).pickup_hour ∧
    (makeFeatureRow (locRows ts_data.rows location_id) location_id idx).pickup_location_id =
      location_id ∧
    (transform_ts_data_into_features_and_target ts_data
        input_seq_len step_size).toOption.map (fun p => p.1.length) =
      (transform_ts_data_into_features_and_target ts_data
        input_seq_len step_size).toOption.map (fun p => p.2.length) := by
  obtain ⟨j, h1, h2, h3, h4, h5⟩ := get_cutoff_mem hidx
  generalize hjs : j * step_size = js at h1 h2 h3
  have hmlen : idx.2.1 < (locRows ts_data.rows location_id).length := by omega
  have hsub : ∀ r ∈ locRows ts_data.rows location_id, r.rides ≤ 2 ^ 24 := by
    intro r hr
    exact hcounts r (List.mem_filter.mp hr).1
  refine ⟨?_, ?_, ?_, ?_, ?_⟩
  · unfold featureColumns
    rw [List.getElem?_map,
      List.getElem?_reverse (by rw [List.length_range]; omega),
      List.length_range]
    have he : input_seq_len - 1 - (input_seq_len - N) = N - 1 := by omega
    rw [he, List.getElem?_range (by omega)]
    show some ("rides_previous_" ++ toString (N - 1 + 1) ++ "_hour") =
      some ("rides_previous_" ++ toString N ++ "_hour")
    have he2 : N - 1 + 1 = N := by omega
    rw [he2]
  · rw [makeFeatureRow_window_getD _ _ _ _ (by omega) (by omega)]
    have harg : idx.1 + (input_seq_len - N) = idx.2.1 - N := by omega
    rw [harg]
    exact roundFloat32_of_le (hsub _ (getD_mem (by omega)))
  · have hd := dense_getD_add _ hdense (idx.2.1 - N) N (by omega)
    have he : idx.2.1 - N + N = idx.2.1 := by omega
    rw [he] at hd
    rw [show (makeFeatureRow (locRows ts_data.rows location_id) location_id idx).pickup_hour =
      ((locRows ts_data.rows location_id).getD idx.2.1 ⟨0, 0, 0⟩).pickup_hour from rfl]
    exact hd.symm
  · rfl
  · rw [transform_eq_ok ts_data input_seq_len step_size hcols]
    show some (featuresList ts_data.rows input_seq_len step_size).length =
      some (targetsList ts_data.rows input_seq_len step_size).length
    rw [features_targets_length_eq]

/-- Witness for the amended C8: column `rides_previous_1_hour` of the
first window of the scenario series. -/
theorem transform_feature_columns_witness :
    (featureColumns 3)[2]? = some ("rides_previous_" ++ toString 1 ++ "_hour") ∧
    (makeFeatureRow (locRows exDf7.rows 1) 1 (0, 3, 4)).window.getD 2 0 =
      ((locRows exDf7.rows 1).getD 2 ⟨0, 0, 0⟩).rides ∧
    ((locRows exDf7.rows 1).getD 2 ⟨0, 0, 0⟩).pickup_hour + 1 =
      (makeFeatureRow (locRows exDf7.rows 1) 1 (0, 3, 4)).pickup_hour ∧
    (makeFeatureRow (locRows exDf7.rows 1) 1 (0, 3, 4)).pickup_location_id = 1 ∧
    (transform_ts_data_into_features_and_target exDf7 3 1).toOption.map
        (fun p => p.1.length) =
      (transform_ts_data_into_features_and_target exDf7 3 1).toOption.map
        (fun p => p.2.length) :=
  transform_feature_columns exDf7 3 1 1 1 (0, 3, 4) (by decide) (by decide) (by decide)
    (by decide) (by decide) (by decide)

theorem ok_toOption_getD {ε α : Type} (x : List α) :
    ((Except.ok x : Except ε (List α)).toOption.getD []) = x := rfl

theorem filter_block_ne {lo hi H locT x : Nat} (hne : x ≠ locT) (v : Nat → Nat) :
    (((List.range (hi + 1 - lo)).map (fun j => lo + j)).map
        (fun h => (⟨h, x, v h⟩ : TsRow))).filter
      (fun r => r.pickup_hour == H && r.pickup_location_id == locT) = [] := by
  rw [List.filter_eq_nil_iff]
  intro r hr
  obtain ⟨h0, hmem, rfl⟩ := List.mem_map.mp hr
  simp [hne]

theorem filter_block_eq {lo hi H locT : Nat} (v : Nat → Nat)
    (hH1 : lo ≤ H) (hH2 : H ≤ hi) :
    (((List.range (hi + 1 - lo)).map (fun j => lo + j)).map
        (fun h => (⟨h, locT, v h⟩ : TsRow))).filter
      (fun r => r.pickup_hour == H && r.pickup_location_id == locT) =
    [⟨H, locT, v H⟩] := by
  rw [List.filter_map]
  have hpred : ∀ h0 ∈ (List.range (hi + 1 - lo)).map (fun j => lo + j),
      ((fun r : TsRow => r.pickup_hour == H && r.pickup_location_id == locT) ∘
        (fun h => (⟨h, locT, v h⟩ : TsRow))) h0 = (h0 == H) := by
    intro h0 _
    simp [Function.comp]
  rw [List.filter_congr hpred, filter_beq_of_nodup (nodup_fullRange lo hi)
    (mem_fullRange.mpr ⟨hH1, hH2⟩)]
  rfl

/-- C5: for every non-empty input with no duplicate (hour, location)
observation, the densified output succeeds and, for every location id
present in the input and every hour between the global minimum and
maximum hour, contains exactly one row for that pair - a singleton
under the pair filter - whose count is the count of the unique
matching input observation when the pair was observed, and 0
otherwise (the `find?`-expression below is exactly that case
analysis). -/
theorem add_missing_slots_dense_complete (agg : List TsRow) (lo hi location_id H : Nat)
    (hpairs : (agg.map (fun r => (r.pickup_hour, r.pickup_location_id))).Nodup)
    (hlo : minHour (agg.map (fun r => r.pickup_hour)) = some lo)
    (hhi : maxHour (agg.map (fun r => r.pickup_hour)) = some hi)
    (hL : location_id ∈ agg.map (fun r => r.pickup_location_id))
    (hH1 : lo ≤ H) (hH2 : H ≤ hi) :
    (add_missing_slots agg).toOption.isSome = true ∧
    ((add_missing_slots agg).toOption.getD []).filter
        (fun r => r.pickup_hour == H && r.pickup_location_id == location_id) =
      [⟨H, location_id,
        ((agg.find? (fun r =>
            r.pickup_hour == H && r.pickup_location_id == location_id)).map
          (fun r => r.rides)).getD 0⟩] := by
  have hadd : add_missing_slots agg =
      .ok (concatMapL (fun l =>
        ((List.range (hi + 1 - lo)).map (fun j => lo + j)).map (fun h =>
          (⟨h, l,
            (((agg.filter (fun r => r.pickup_location_id == l)).find?
              (fun r => r.pickup_hour == h)).map (fun r => r.rides)).getD 0⟩ : TsRow)))
        (uniqueFirst (agg.map (fun r => r.pickup_location_id)))) := by
    unfold add_missing_slots
    rw [hlo, hhi]
    exact exceptFlat_ok _ _ _ (fun l _ => by
      unfold densifyOne
      rw [if_pos (nodup_hours_of_nodup_pairs hpairs l)])
  rw [hadd]
  refine ⟨rfl, ?_⟩
  rw [ok_toOption_getD, filter_concatMapL]
  rw [concatMapL_eq_single (nodup_uniqueFirst _) (mem_uniqueFirst.mpr hL)
    (fun x _ hne => filter_block_ne hne _)]
  rw [filter_block_eq _ hH1 hH2]
  rw [findFilterEq, findCongrEq (fun a => Bool.and_comm _ _) agg]

/-- Witness for C5 on the documented densifier scenario: location 42,
hour 3, count 6. -/
theorem add_missing_slots_dense_complete_witness :
    (add_missing_slots exAgg42).toOption.isSome = true ∧
    ((add_missing_slots exAgg42).toOption.getD []).filter
        (fun r => r.pickup_hour == 3 && r.pickup_location_id == 42) =
      [⟨3, 42,
        ((exAgg42.find? (fun r =>
            r.pickup_hour == 3 && r.pickup_location_id == 42)).map
          (fun r => r.rides)).getD 0⟩] :=
  add_missing_slots_dense_complete exAgg42 0 3 42 3 (by decide) rfl rfl
    (by decide) (by decide) (by decide)
